import Mathlib

/-!
Verification of the BOING pong game (src/BOING.py) against its
natural-language specification.  The game's numeric state (positions,
velocities, timers) is embedded with exact rationals; Python's `int(...)`
truncation toward zero is modelled by `pyInt`.  Comparisons that the source
makes on `math.hypot` speeds are modelled by the equivalent comparisons on
squared speeds (for nonnegative reals, `hypot vx vy < c` iff
`vx ^ 2 + vy ^ 2 < c ^ 2`).  Configuration constants from src/BOING.py
lines 59-75: `WIDTH = 900`, `HEIGHT = 600`, `SCORE_TO_WIN = 5`,
`PADDLE_WIDTH = 12`, `PADDLE_HEIGHT = 100`, `PADDLE_SPEED = 360`,
`BALL_SIZE = 14`, `BALL_SPEED_START = 300`, `BALL_SPEED_INCREMENT = 0.8`,
`MAX_BALL_SPEED = 1200`.
-/

namespace Boing

/-- Python `int(q)`: truncation toward zero. -/
def pyInt (q : ℚ) : ℤ := if 0 ≤ q then ⌊q⌋ else ⌈q⌉

/-- Ball state: continuous center position `(x, y)` and velocity `(vx, vy)`
(src/BOING.py lines 228-235).  `BALL_SIZE = 14`, so the render rect has
half height `14 / 2 = 7`. -/
structure Ball where
  x : ℚ
  y : ℚ
  vx : ℚ
  vy : ℚ
deriving DecidableEq

/-- `Ball.update` (src/BOING.py lines 248-259): integrate position, then two
sequential boundary checks; each clamps `y` to the bound and negates `vy`.
`half_h = rect.height / 2 = 7`, `HEIGHT = 600`. -/
def Ball.update (b : Ball) (dt : ℚ) : Ball :=
  let b1 : Ball := { b with x := b.x + b.vx * dt, y := b.y + b.vy * dt }
  let b2 : Ball := if b1.y - 7 ≤ 0 then { b1 with y := 7, vy := -b1.vy } else b1
  let b3 : Ball := if b2.y + 7 ≥ 600 then { b2 with y := 600 - 7, vy := -b2.vy } else b2
  b3

/-- Paddle state: continuous vertical position, velocity (px/s) and flash
timer (src/BOING.py lines 199-204). -/
structure Paddle where
  y : ℚ
  speed : ℚ
  flashTimer : ℚ
deriving DecidableEq

/-- `Paddle.move` (src/BOING.py lines 206-214): integrate `y`, clamp to
`[0, HEIGHT - PADDLE_HEIGHT]` with `HEIGHT = 600`, `PADDLE_HEIGHT = 100`,
then decay the flash timer.  The velocity field is not touched. -/
def Paddle.move (p : Paddle) (dt : ℚ) : Paddle :=
  let y1 : ℚ := p.y + p.speed * dt
  let y2 : ℚ := if y1 < 0 then 0 else y1
  let y3 : ℚ := if y2 + 100 > 600 then 600 - 100 else y2
  let ft : ℚ := if 0 < p.flashTimer then max 0 (p.flashTimer - dt) else p.flashTimer
  { y := y3, speed := p.speed, flashTimer := ft }

/-- `Ball.reset` (src/BOING.py lines 237-246) with the randomness made
explicit: `angle` stands for the value of `random.uniform(-0.5, 0.5)` and
`d` for the serve direction.  `WIDTH // 2 = 450`, `HEIGHT // 2 = 300`,
`BALL_SPEED_START = 300`. -/
def ballReset (d : ℚ) (angle : ℚ) : Ball :=
  { x := 450, y := 300, vx := d * 300 * (1 + |angle|), vy := 300 * angle * 2 }

/-- Squared speed of the ball; `math.hypot vx vy ^ 2`. -/
def speedSq (b : Ball) : ℚ := b.vx ^ 2 + b.vy ^ 2

/-- Vertical velocity right after the paddle deflection
`ball.vy += offset * 150.0` where
`offset = (ball.rect.centery - paddle.rect.centery) / (paddle.rect.height / 2)`
(src/BOING.py lines 933-934 and 954-955).  `pcy` is the paddle rect's
integer `centery`; the ball rect's `centery` is `int(ball.y)`. -/
def vyDefl (b : Ball) (pcy : ℤ) : ℚ := b.vy + ((pyInt b.y - pcy : ℤ) : ℚ) / 50 * 150

/-- Squared speed after the vertical deflection, the quantity the source
compares against `MAX_BALL_SPEED` (via `math.hypot`) to decide whether to
scale up. -/
def deflSq (b : Ball) (pcy : ℤ) : ℚ := b.vx ^ 2 + (vyDefl b pcy) ^ 2

/-- Left-paddle collision response (src/BOING.py lines 925-944, state part):
clamp the ball to the paddle's right edge (`left.rect.right = 32`, so
`x = 32 + 14 / 2 = 39`), force `vx = abs(vx)`, add the vertical deflection,
then if the resulting speed is below `MAX_BALL_SPEED = 1200` scale both
components by `1 + BALL_SPEED_INCREMENT / 10 = 1 + (8/10)/10 = 27/25`. -/
def collideLeft (b : Ball) (pcy : ℤ) : Ball :=
  let vx1 : ℚ := |b.vx|
  let vy1 : ℚ := vyDefl b pcy
  if vx1 ^ 2 + vy1 ^ 2 < 1200 ^ 2 then
    { x := 39, y := b.y, vx := vx1 * (27 / 25), vy := vy1 * (27 / 25) }
  else
    { x := 39, y := b.y, vx := vx1, vy := vy1 }

/-- Right-paddle collision response (src/BOING.py lines 946-965, state
part): clamp to the right paddle's left edge
(`right.rect.left = 900 - 20 - 12 = 868`, so `x = 868 - 14 / 2 = 861`),
force `vx = -abs(vx)`, deflect, and conditionally scale. -/
def collideRight (b : Ball) (pcy : ℤ) : Ball :=
  let vx1 : ℚ := -|b.vx|
  let vy1 : ℚ := vyDefl b pcy
  if vx1 ^ 2 + vy1 ^ 2 < 1200 ^ 2 then
    { x := 861, y := b.y, vx := vx1 * (27 / 25), vy := vy1 * (27 / 25) }
  else
    { x := 861, y := b.y, vx := vx1, vy := vy1 }

/-- Frame time step (src/BOING.py line 811): `dt = clock.tick(FPS) / 1000.0`
where `clock.tick` returns the elapsed milliseconds since the previous
frame as a nonnegative integer.  No further processing is applied to `dt`
before it is used for integration. -/
def computeDt (tickMs : ℕ) : ℚ := (tickMs : ℚ) / 1000

/-- Scoring step (src/BOING.py lines 967-986): the ball's rect is 14 wide
centered at `int(ball.x)`, so `rect.right = int(ball.x) + 7` and
`rect.left = int(ball.x) - 7`.  If the ball fully exits on the left
(`rect.right < 0`) the right side scores and the ball is served toward the
left (`serve_dir = -scorer = -1`); mirrored on the right (`WIDTH = 900`).
`angle` is the serve's random angle. -/
def scoreStep (b : Ball) (l r : ℕ) (angle : ℚ) : ℕ × ℕ × Ball :=
  if pyInt b.x + 7 < 0 then (l, r + 1, ballReset (-1) angle)
  else if pyInt b.x - 7 > 900 then (l + 1, r, ballReset 1 angle)
  else (l, r, b)

/-- Outcome of the win-condition block: either the whole game exits (quit
requested during the winner banner) or play continues with the given
scores; `freshServe` records whether `ball.reset()` was called. -/
inductive WinOutcome where
  | exitGame : WinOutcome
  | cont (scoreLeft scoreRight : ℕ) (freshServe : Bool) : WinOutcome
deriving DecidableEq

/-- Win-condition block run after a point is scored (src/BOING.py lines
988-999): guarded by `SCORE_TO_WIN and SCORE_TO_WIN > 0` (both conjuncts
kept, mirroring Python truthiness of the integer).  When either score has
reached `stw` a winner banner is shown (`"Left wins!"` if the left score
reached it, else `"Right wins!"`); afterwards, unless the player quit
during the banner, both scores reset to 0 and a fresh ball is served. -/
def winCheck (stw l r : ℕ) (quitRequested : Bool) : Option String × WinOutcome :=
  if stw ≠ 0 ∧ 0 < stw then
    if stw ≤ l ∨ stw ≤ r then
      (some (if stw ≤ l then "Left wins!" else "Right wins!"),
       if quitRequested then .exitGame else .cont 0 0 true)
    else (none, .cont l r false)
  else (none, .cont l r false)

/-- `n` consecutive points scored by the right side (ball repeatedly exits
on the left), each followed by the win-condition block with no quit
request; models endless play when the win condition is disabled. -/
def playPoints (stw : ℕ) : ℕ → ℕ × ℕ
  | 0 => (0, 0)
  | n + 1 =>
    let s := playPoints stw n
    match (winCheck stw s.1 (s.2 + 1) false).2 with
    | .exitGame => (s.1, s.2 + 1)
    | .cont l r _ => (l, r)

/-- A persisted Python value: the settings record is a dict of strings,
booleans, ints, `None` (an unbound key binding) and one nested dict. -/
inductive PVal where
  | vstr (s : String)
  | vbool (b : Bool)
  | vint (n : ℤ)
  | vnone
  | vdict (d : List (String × PVal))

/-- Lookup in a Python dict modelled as an association list with distinct
keys (first match). -/
def dget : List (String × PVal) → String → Option PVal
  | [], _ => none
  | (k', v) :: d, k => if k = k' then some v else dget d k

/-- `d[k] = v` on a Python dict: overwrite the binding if the key is
present, otherwise append it. -/
def dset : List (String × PVal) → String → PVal → List (String × PVal)
  | [], k, v => [(k, v)]
  | (k', v') :: d, k, v => if k = k' then (k', v) :: d else (k', v') :: dset d k v

/-- `d.update(u)` on Python dicts: set every binding of `u` in `d`, in
order. -/
def dupdate (d u : List (String × PVal)) : List (String × PVal) :=
  u.foldl (fun acc kv => dset acc kv.1 kv.2) d

/-- The keys of a dict. -/
def dkeys (d : List (String × PVal)) : List String := d.map Prod.fst

/-- `DEFAULT_SETTINGS["controls"]` (src/BOING.py lines 92-100): pygame key
constants `K_w = 119`, `K_s = 115`, `K_UP = 1073741906`,
`K_DOWN = 1073741905`, `K_r = 114`, `K_m = 109`, `K_F3 = 1073741884`. -/
def defaultControls : List (String × PVal) :=
  [("left_up", .vint 119), ("left_down", .vint 115),
   ("right_up", .vint 1073741906), ("right_down", .vint 1073741905),
   ("reset", .vint 114), ("menu", .vint 109), ("debug", .vint 1073741884)]

/-- `DEFAULT_SETTINGS` (src/BOING.py lines 87-101). -/
def defaultSettings : List (String × PVal) :=
  [("ai_difficulty", .vstr "Normal"), ("particle_quality", .vstr "Normal"),
   ("sound", .vbool true), ("controls", .vdict defaultControls)]

/-- `save_settings` (src/BOING.py lines 153-162) pickles the record to the
config file; with no external corruption the bytes read back deserialize to
the very record that was saved, so the file content is modelled as the
record itself. -/
def saveSettings (settings : List (String × PVal)) : List (String × PVal) :=
  settings

/-- `load_settings` (src/BOING.py lines 129-150), success path for an
existing, uncorrupted file holding the dict `data`: start from the
defaults, merge `data["controls"]` over the default controls dict (if it is
a dict), merge `data` over the defaults, then install the merged controls
dict. -/
def loadSettings (data : List (String × PVal)) : List (String × PVal) :=
  let controls : List (String × PVal) :=
    match dget data "controls" with
    | some (PVal.vdict c) => dupdate defaultControls c
    | _ => defaultControls
  dset (dupdate defaultSettings data) "controls" (PVal.vdict controls)

/-- A sample settings record with one unbound control (`"reset"`), used to
witness the round-trip theorem. -/
def sampleControls : List (String × PVal) :=
  [("left_up", .vint 119), ("left_down", .vint 115),
   ("right_up", .vint 1073741906), ("right_down", .vint 1073741905),
   ("reset", .vnone), ("menu", .vint 109), ("debug", .vint 1073741884)]

/-- A sample settings record wrapping `sampleControls`. -/
def sampleSettings : List (String × PVal) :=
  [("ai_difficulty", .vstr "Easy"), ("particle_quality", .vstr "Low"),
   ("sound", .vbool false), ("controls", .vdict sampleControls)]

/-- `get_particle_count` (src/BOING.py lines 334-340): quality `"Low"`
halves the base count (at least 1), `"High"` scales it by 1.8, anything
else returns the base count; Python `int(...)` truncates. -/
def getParticleCount (q : String) (base : ℤ) : ℤ :=
  if q = "Low" then max 1 (pyInt ((base : ℚ) * (1 / 2)))
  else if q = "High" then pyInt ((base : ℚ) * (9 / 5))
  else base

/-- Number of particles spawned by `emit_particles` (src/BOING.py lines
1102-1105): base count 12, scaled by quality and intensity, clamped to
`[2, 200]`. -/
def emitParticlesCount (q : String) (intensity : ℚ) : ℤ :=
  max 2 (min 200 (pyInt ((getParticleCount q 12 : ℚ) * intensity)))

/-- `ai_move` (src/BOING.py lines 309-326): difficulty selects a max speed
and a deadzone (`"Easy"`: `360 * 0.7` and `14`; `"Hard"`: `360 * 1.35` and
`4`; otherwise `360` and `8`), then the paddle is driven toward the ball's
rect center unless it is within the deadzone.  `pcy` and `bcy` are the
integer rect centers of the paddle and the ball; the returned value is the
paddle velocity that the function assigns. -/
def aiMove (diff : String) (pcy bcy : ℤ) : ℚ :=
  let maxspeed : ℚ :=
    if diff = "Easy" then 360 * (7 / 10)
    else if diff = "Hard" then 360 * (27 / 20)
    else 360
  let deadzone : ℚ := if diff = "Easy" then 14 else if diff = "Hard" then 4 else 8
  if (pcy : ℚ) < (bcy : ℚ) - deadzone then maxspeed
  else if (pcy : ℚ) > (bcy : ℚ) + deadzone then -maxspeed
  else 0

end Boing

namespace Boing

/-- Closed form of `Ball.update`: the two sequential boundary checks act as
a single three-way case split because the first clamp (to `y = 7`) can
never trigger the second check (`7 + 7 < 600`). -/
theorem ball_update_eq (b : Ball) (dt : ℚ) :
    b.update dt =
      if b.y + b.vy * dt ≤ 7 then ⟨b.x + b.vx * dt, 7, b.vx, -b.vy⟩
      else if 593 ≤ b.y + b.vy * dt then ⟨b.x + b.vx * dt, 593, b.vx, -b.vy⟩
      else ⟨b.x + b.vx * dt, b.y + b.vy * dt, b.vx, b.vy⟩ := by
  unfold Ball.update
  dsimp only
  by_cases h1 : b.y + b.vy * dt - 7 ≤ 0
  · rw [if_pos h1]
    dsimp only
    rw [if_neg (by norm_num : ¬ (600:ℚ) ≤ 7 + 7), if_pos (by linarith : b.y + b.vy * dt ≤ 7)]
  · rw [if_neg h1]
    dsimp only
    by_cases h2 : (600:ℚ) ≤ b.y + b.vy * dt + 7
    · rw [if_pos h2, if_neg (by linarith : ¬ b.y + b.vy * dt ≤ 7),
        if_pos (by linarith : (593:ℚ) ≤ b.y + b.vy * dt)]
      norm_num
    · rw [if_neg h2, if_neg (by linarith : ¬ b.y + b.vy * dt ≤ 7),
        if_neg (by linarith : ¬ (593:ℚ) ≤ b.y + b.vy * dt)]

/-- C3: for every ball state and every `dt ≥ 0`, after `Ball.update` the
vertical center lies in `[halfSize, boardHeight - halfSize] = [7, 593]`,
and the vertical velocity is negated exactly once, precisely when the
integrated vertical position reached the top or bottom bound; the
horizontal components are the plain integration. -/
theorem c3_ball_vertical_invariant (b : Ball) (dt : ℚ) (hdt : 0 ≤ dt) :
    7 ≤ (b.update dt).y ∧ (b.update dt).y ≤ 593 ∧
    (b.update dt).vy =
      (if b.y + b.vy * dt ≤ 7 ∨ 593 ≤ b.y + b.vy * dt then -b.vy else b.vy) ∧
    (b.update dt).x = b.x + b.vx * dt ∧ (b.update dt).vx = b.vx := by
  rw [ball_update_eq]
  by_cases h1 : b.y + b.vy * dt ≤ 7
  · rw [if_pos h1, if_pos (Or.inl h1)]
    exact ⟨by norm_num, by norm_num, rfl, rfl, rfl⟩
  · rw [if_neg h1]
    by_cases h2 : (593:ℚ) ≤ b.y + b.vy * dt
    · rw [if_pos h2, if_pos (Or.inr h2)]
      exact ⟨by norm_num, by norm_num, rfl, rfl, rfl⟩
    · rw [if_neg h2, if_neg (by tauto)]
      refine ⟨?_, ?_, rfl, rfl, rfl⟩ <;> dsimp only <;> push_neg at h1 h2 <;> linarith

/-- C3 witness: concrete evaluation at a ball crossing the bottom bound. -/
theorem c3_ball_vertical_invariant_witness :
    (0:ℚ) ≤ 1 ∧
    (7 ≤ ((⟨450, 590, 100, 50⟩ : Ball).update 1).y ∧
      ((⟨450, 590, 100, 50⟩ : Ball).update 1).y ≤ 593 ∧
      ((⟨450, 590, 100, 50⟩ : Ball).update 1).vy =
        (if (590:ℚ) + 50 * 1 ≤ 7 ∨ 593 ≤ (590:ℚ) + 50 * 1 then -(50:ℚ) else 50) ∧
      ((⟨450, 590, 100, 50⟩ : Ball).update 1).x = 450 + 100 * 1 ∧
      ((⟨450, 590, 100, 50⟩ : Ball).update 1).vx = 100) :=
  ⟨by norm_num, c3_ball_vertical_invariant ⟨450, 590, 100, 50⟩ 1 (by norm_num)⟩

/-- C4: for every paddle state and every `dt > 0`, after `Paddle.move` the
vertical position lies in `[0, boardHeight - paddleHeight] = [0, 500]`, and
the clamping leaves the velocity field unchanged. -/
theorem c4_paddle_clamp (p : Paddle) (dt : ℚ) (hdt : 0 < dt) :
    0 ≤ (p.move dt).y ∧ (p.move dt).y ≤ 500 ∧ (p.move dt).speed = p.speed := by
  unfold Paddle.move
  dsimp only
  by_cases h1 : p.y + p.speed * dt < 0
  · rw [if_pos h1]
    by_cases h2 : (0:ℚ) + 100 > 600
    · rw [if_pos h2]
      exact ⟨by norm_num, by norm_num, rfl⟩
    · rw [if_neg h2]
      exact ⟨le_refl 0, by norm_num, rfl⟩
  · rw [if_neg h1]
    push_neg at h1
    by_cases h2 : p.y + p.speed * dt + 100 > 600
    · rw [if_pos h2]
      exact ⟨by norm_num, by norm_num, rfl⟩
    · rw [if_neg h2]
      push_neg at h2
      exact ⟨h1, by linarith, rfl⟩

/-- C4 witness: a paddle whose integrated position overshoots the bottom is
clamped to 500 and keeps its velocity. -/
theorem c4_paddle_clamp_witness :
    (0:ℚ) < 1 ∧
    (0 ≤ ((⟨450, 9000, 0⟩ : Paddle).move 1).y ∧
      ((⟨450, 9000, 0⟩ : Paddle).move 1).y ≤ 500 ∧
      ((⟨450, 9000, 0⟩ : Paddle).move 1).speed = 9000) :=
  ⟨by norm_num, c4_paddle_clamp ⟨450, 9000, 0⟩ 1 (by norm_num)⟩

end Boing

namespace Boing

/-- `speedSq` of an explicitly given ball. -/
theorem speedSq_pair (x y vx vy : ℚ) : speedSq ⟨x, y, vx, vy⟩ = vx ^ 2 + vy ^ 2 := rfl

/-- Unfolding lemma for `deflSq`. -/
theorem deflSq_def (b : Ball) (pcy : ℤ) :
    deflSq b pcy = b.vx ^ 2 + (vyDefl b pcy) ^ 2 := rfl

/-- The squared post-deflection speed is nonnegative. -/
theorem deflSq_nonneg (b : Ball) (pcy : ℤ) : 0 ≤ deflSq b pcy := by
  rw [deflSq_def]; positivity

/-- Closed form of the left-paddle collision response: the speed-cap guard
compares the post-deflection speed. -/
theorem collideLeft_eq (b : Ball) (pcy : ℤ) :
    collideLeft b pcy =
      if deflSq b pcy < 1200 ^ 2 then
        ⟨39, b.y, |b.vx| * (27 / 25), vyDefl b pcy * (27 / 25)⟩
      else ⟨39, b.y, |b.vx|, vyDefl b pcy⟩ := by
  unfold collideLeft deflSq
  simp only [sq_abs]

/-- Closed form of the right-paddle collision response. -/
theorem collideRight_eq (b : Ball) (pcy : ℤ) :
    collideRight b pcy =
      if deflSq b pcy < 1200 ^ 2 then
        ⟨861, b.y, -|b.vx| * (27 / 25), vyDefl b pcy * (27 / 25)⟩
      else ⟨861, b.y, -|b.vx|, vyDefl b pcy⟩ := by
  unfold collideRight deflSq
  simp only [neg_sq, sq_abs]

/-- Guarantees the left-paddle collision response actually provides: the
post-collision speed is bounded by the post-deflection speed times the
growth factor, the scaling happens exactly when the post-deflection speed
is below the cap, and a nonzero incoming `vx` leaves rightward. -/
theorem collideLeft_spec (b : Ball) (pcy : ℤ) :
    speedSq (collideLeft b pcy) ≤ deflSq b pcy * (27 / 25) ^ 2 ∧
    (deflSq b pcy < 1200 ^ 2 →
      speedSq (collideLeft b pcy) = deflSq b pcy * (27 / 25) ^ 2) ∧
    (1200 ^ 2 ≤ deflSq b pcy →
      (collideLeft b pcy).vx = |b.vx| ∧ (collideLeft b pcy).vy = vyDefl b pcy) ∧
    (b.vx ≠ 0 → 0 < (collideLeft b pcy).vx) := by
  rw [collideLeft_eq]
  by_cases hc : deflSq b pcy < 1200 ^ 2
  · rw [if_pos hc]
    have hs : speedSq ⟨39, b.y, |b.vx| * (27 / 25), vyDefl b pcy * (27 / 25)⟩
        = deflSq b pcy * (27 / 25) ^ 2 := by
      rw [speedSq_pair, deflSq_def, ← sq_abs b.vx]; ring
    refine ⟨le_of_eq hs, fun _ => hs, fun hcon => absurd hc (not_lt.mpr hcon), fun h => ?_⟩
    show 0 < |b.vx| * (27 / 25)
    exact mul_pos (abs_pos.mpr h) (by norm_num)
  · rw [if_neg hc]
    push_neg at hc
    have hs : speedSq ⟨39, b.y, |b.vx|, vyDefl b pcy⟩ = deflSq b pcy := by
      rw [speedSq_pair, deflSq_def, sq_abs]
    refine ⟨?_, fun hcon => absurd hcon (not_lt.mpr hc), fun _ => ⟨rfl, rfl⟩,
      fun h => abs_pos.mpr h⟩
    rw [hs]
    nlinarith [deflSq_nonneg b pcy]

/-- Guarantees the right-paddle collision response actually provides. -/
theorem collideRight_spec (b : Ball) (pcy : ℤ) :
    speedSq (collideRight b pcy) ≤ deflSq b pcy * (27 / 25) ^ 2 ∧
    (deflSq b pcy < 1200 ^ 2 →
      speedSq (collideRight b pcy) = deflSq b pcy * (27 / 25) ^ 2) ∧
    (1200 ^ 2 ≤ deflSq b pcy →
      (collideRight b pcy).vx = -|b.vx| ∧ (collideRight b pcy).vy = vyDefl b pcy) ∧
    (b.vx ≠ 0 → (collideRight b pcy).vx < 0) := by
  rw [collideRight_eq]
  by_cases hc : deflSq b pcy < 1200 ^ 2
  · rw [if_pos hc]
    have hs : speedSq ⟨861, b.y, -|b.vx| * (27 / 25), vyDefl b pcy * (27 / 25)⟩
        = deflSq b pcy * (27 / 25) ^ 2 := by
      rw [speedSq_pair, deflSq_def, ← sq_abs b.vx]; ring
    refine ⟨le_of_eq hs, fun _ => hs, fun hcon => absurd hc (not_lt.mpr hcon), fun h => ?_⟩
    show -|b.vx| * (27 / 25) < 0
    have h1 : 0 < |b.vx| := abs_pos.mpr h
    nlinarith
  · rw [if_neg hc]
    push_neg at hc
    have hs : speedSq ⟨861, b.y, -|b.vx|, vyDefl b pcy⟩ = deflSq b pcy := by
      rw [speedSq_pair, deflSq_def, neg_sq, sq_abs]
    refine ⟨?_, fun hcon => absurd hcon (not_lt.mpr hc), fun _ => ⟨rfl, rfl⟩, fun h => ?_⟩
    · rw [hs]
      nlinarith [deflSq_nonneg b pcy]
    · show -|b.vx| < 0
      have h1 : 0 < |b.vx| := abs_pos.mpr h
      linarith

/-- C1 (amended): after a paddle collision with nonzero incoming `vx`, the
horizontal velocity points away from the paddle; the post-collision speed
is at most the POST-DEFLECTION speed times the growth factor `27/25`
(not the pre-collision speed times it, see the counterexample); the
`×27/25` scale-up is applied exactly when the post-deflection speed is
below `MAX_BALL_SPEED = 1200` (so the speed can exceed 1200 by up to that
factor, and at or above the cap no acceleration occurs). -/
theorem c1_collision_amended (b : Ball) (pcyL pcyR : ℤ) (h : b.vx ≠ 0) :
    0 < (collideLeft b pcyL).vx ∧ (collideRight b pcyR).vx < 0 ∧
    speedSq (collideLeft b pcyL) ≤ deflSq b pcyL * (27 / 25) ^ 2 ∧
    (deflSq b pcyL < 1200 ^ 2 →
      speedSq (collideLeft b pcyL) = deflSq b pcyL * (27 / 25) ^ 2) ∧
    (1200 ^ 2 ≤ deflSq b pcyL →
      (collideLeft b pcyL).vx = |b.vx| ∧ (collideLeft b pcyL).vy = vyDefl b pcyL) ∧
    speedSq (collideRight b pcyR) ≤ deflSq b pcyR * (27 / 25) ^ 2 ∧
    (deflSq b pcyR < 1200 ^ 2 →
      speedSq (collideRight b pcyR) = deflSq b pcyR * (27 / 25) ^ 2) ∧
    (1200 ^ 2 ≤ deflSq b pcyR →
      (collideRight b pcyR).vx = -|b.vx| ∧ (collideRight b pcyR).vy = vyDefl b pcyR) := by
  obtain ⟨l1, l2, l3, l4⟩ := collideLeft_spec b pcyL
  obtain ⟨r1, r2, r3, r4⟩ := collideRight_spec b pcyR
  exact ⟨l4 h, r4 h, l1, l2, l3, r1, r2, r3⟩

/-- C1 witness: concrete instantiation of the amended collision theorem. -/
theorem c1_collision_amended_witness :
    ((⟨39, 350, 1150, 0⟩ : Ball).vx ≠ 0) ∧
    0 < (collideLeft ⟨39, 350, 1150, 0⟩ 300).vx ∧
    (collideRight ⟨39, 350, 1150, 0⟩ 300).vx < 0 :=
  ⟨by norm_num,
   (c1_collision_amended ⟨39, 350, 1150, 0⟩ 300 300 (by norm_num)).1,
   (c1_collision_amended ⟨39, 350, 1150, 0⟩ 300 300 (by norm_num)).2.1⟩

/-- C1 counterexample: a left-paddle hit with incoming velocity
`(1150, 0)` and the ball one half paddle-height below the paddle center
(`offset = 1`).  The deflection raises `vy` to 150, the squared speed
`1150^2 + 150^2 = 1345000` is still below `1200^2`, so the scale-up fires
and the outgoing velocity is `(1242, 162)` with squared speed `1568808`:
larger than both the claimed bound
`(pre-collision speed × 27/25)^2 = 1150^2 × (27/25)^2 = 1542564` and
`MAX_BALL_SPEED^2 = 1440000`. -/
theorem c1_collision_counterexample :
    ¬ (speedSq (collideLeft ⟨39, 350, 1150, 0⟩ 300)
          ≤ speedSq ⟨39, 350, 1150, 0⟩ * (27 / 25) ^ 2 ∧
       speedSq (collideLeft ⟨39, 350, 1150, 0⟩ 300) ≤ 1200 ^ 2) := by
  have h : collideLeft ⟨39, 350, 1150, 0⟩ 300 = ⟨39, 350, 1242, 162⟩ := by
    norm_num [collideLeft, vyDefl, pyInt]
  rw [h]
  norm_num [speedSq]

/-- C2 counterexample: there is no upper cap at all on the `dt` computed by
the game loop; `dt = tick/1000` grows without bound in the tick. -/
theorem c2_dt_clamp_counterexample :
    ¬ ∃ C : ℚ, ∀ tickMs : ℕ, computeDt tickMs ≤ C := by
  rintro ⟨C, hC⟩
  have key : computeDt ((⌈C⌉.toNat + 1) * 1000) = (⌈C⌉.toNat : ℚ) + 1 := by
    unfold computeDt
    push_cast
    field_simp
  have h1 := hC ((⌈C⌉.toNat + 1) * 1000)
  rw [key] at h1
  have h3 : C ≤ (⌈C⌉ : ℚ) := Int.le_ceil C
  have h4 : ((⌈C⌉ : ℚ)) ≤ ((⌈C⌉.toNat : ℚ)) := by exact_mod_cast Int.self_le_toNat _
  linarith

/-- C2 (amended): the per-frame `dt` is exactly `clock.tick(FPS) / 1000`
with no clamping, so for every candidate cap there is a frame hitch whose
`dt` exceeds it. -/
theorem c2_dt_unbounded_amended :
    (∀ tickMs : ℕ, computeDt tickMs = (tickMs : ℚ) / 1000) ∧
    ∀ C : ℚ, ∃ tickMs : ℕ, C < computeDt tickMs := by
  refine ⟨fun _ => rfl, fun C => ⟨(⌈C⌉.toNat + 1) * 1000, ?_⟩⟩
  have key : computeDt ((⌈C⌉.toNat + 1) * 1000) = (⌈C⌉.toNat : ℚ) + 1 := by
    unfold computeDt
    push_cast
    field_simp
  rw [key]
  have h3 : C ≤ (⌈C⌉ : ℚ) := Int.le_ceil C
  have h4 : ((⌈C⌉ : ℚ)) ≤ ((⌈C⌉.toNat : ℚ)) := by exact_mod_cast Int.self_le_toNat _
  linarith

/-- C5: on a frame where the ball fully exits a side boundary exactly one
score is incremented by one — the side opposite the exit boundary — and
the ball is reset to the board center (450, 300) with its horizontal
velocity directed toward the side that lost the point; on all other frames
the scoring step changes nothing. -/
theorem c5_scoring (b : Ball) (l r : ℕ) (a : ℚ) :
    (pyInt b.x + 7 < 0 → scoreStep b l r a = (l, r + 1, ballReset (-1) a)) ∧
    (¬ pyInt b.x + 7 < 0 → pyInt b.x - 7 > 900 →
      scoreStep b l r a = (l + 1, r, ballReset 1 a)) ∧
    (¬ pyInt b.x + 7 < 0 → ¬ pyInt b.x - 7 > 900 → scoreStep b l r a = (l, r, b)) ∧
    (ballReset (-1) a).vx < 0 ∧ 0 < (ballReset 1 a).vx ∧
    (ballReset (-1) a).x = 450 ∧ (ballReset (-1) a).y = 300 ∧
    (ballReset 1 a).x = 450 ∧ (ballReset 1 a).y = 300 := by
  have h0 : (0:ℚ) ≤ |a| := abs_nonneg a
  refine ⟨fun h => ?_, fun h h' => ?_, fun h h' => ?_, ?_, ?_, rfl, rfl, rfl, rfl⟩
  · unfold scoreStep; rw [if_pos h]
  · unfold scoreStep; rw [if_neg h, if_pos h']
  · unfold scoreStep; rw [if_neg h, if_neg h']
  · show (-1 : ℚ) * 300 * (1 + |a|) < 0
    nlinarith
  · show (0:ℚ) < 1 * 300 * (1 + |a|)
    nlinarith

/-- C5 witness: a ball past the left boundary gives the right side one
point and a leftward serve. -/
theorem c5_scoring_witness :
    pyInt (-10 : ℚ) + 7 < 0 ∧
    scoreStep ⟨-10, 300, -300, 0⟩ 3 4 0 = (3, 5, ballReset (-1) 0) ∧
    (ballReset (-1) 0).vx < 0 := by
  have h : pyInt (-10 : ℚ) + 7 < 0 := by decide
  have main := c5_scoring ⟨-10, 300, -300, 0⟩ 3 4 0
  exact ⟨h, main.1 h, main.2.2.2.1⟩

/-- C10: after `Ball.reset` with direction `d ∈ {1, -1}` and serve angle
`|angle| ≤ 1/2`, the ball sits exactly at the board center (450, 300), the
sign of `vx` equals `d`, the horizontal speed lies in
`[BALL_SPEED_START, 1.5 × BALL_SPEED_START] = [300, 450]` (never zero),
and the vertical speed is at most `BALL_SPEED_START = 300`. -/
theorem c10_ball_reset (d a : ℚ) (hd : d = 1 ∨ d = -1) (ha : |a| ≤ 1 / 2) :
    (ballReset d a).x = 450 ∧ (ballReset d a).y = 300 ∧
    (d = 1 → 0 < (ballReset d a).vx) ∧ (d = -1 → (ballReset d a).vx < 0) ∧
    300 ≤ |(ballReset d a).vx| ∧ |(ballReset d a).vx| ≤ 450 ∧
    |(ballReset d a).vy| ≤ 300 := by
  have h0 : (0:ℚ) ≤ |a| := abs_nonneg a
  rcases hd with rfl | rfl
  · have hvx : (ballReset 1 a).vx = 300 * (1 + |a|) := by
      simp only [ballReset]; ring
    have habs : |(ballReset 1 a).vx| = 300 * (1 + |a|) := by
      rw [hvx]; exact abs_of_nonneg (by linarith)
    have hvy : |(ballReset 1 a).vy| ≤ 300 := by
      have h : (ballReset 1 a).vy = 600 * a := by simp only [ballReset]; ring
      rw [h, abs_mul, abs_of_nonneg (by norm_num : (0:ℚ) ≤ 600)]
      linarith
    refine ⟨rfl, rfl, fun _ => ?_, fun hcon => by norm_num at hcon, ?_, ?_, hvy⟩
    · rw [hvx]; linarith
    · rw [habs]; linarith
    · rw [habs]; linarith
  · have hvx : (ballReset (-1) a).vx = -(300 * (1 + |a|)) := by
      simp only [ballReset]; ring
    have habs : |(ballReset (-1) a).vx| = 300 * (1 + |a|) := by
      rw [hvx, abs_neg]; exact abs_of_nonneg (by linarith)
    have hvy : |(ballReset (-1) a).vy| ≤ 300 := by
      have h : (ballReset (-1) a).vy = 600 * a := by simp only [ballReset]; ring
      rw [h, abs_mul, abs_of_nonneg (by norm_num : (0:ℚ) ≤ 600)]
      linarith
    refine ⟨rfl, rfl, fun hcon => by norm_num at hcon, fun _ => ?_, ?_, ?_, hvy⟩
    · rw [hvx]; linarith
    · rw [habs]; linarith
    · rw [habs]; linarith

/-- C10 witness: serve to the right with angle 1/4. -/
theorem c10_ball_reset_witness :
    ((1:ℚ) = 1 ∨ (1:ℚ) = -1) ∧ |(1/4 : ℚ)| ≤ 1/2 ∧
    ((ballReset 1 (1/4)).x = 450 ∧ (ballReset 1 (1/4)).y = 300 ∧
      ((1:ℚ) = 1 → 0 < (ballReset 1 (1/4)).vx) ∧
      ((1:ℚ) = -1 → (ballReset 1 (1/4)).vx < 0) ∧
      300 ≤ |(ballReset 1 (1/4)).vx| ∧ |(ballReset 1 (1/4)).vx| ≤ 450 ∧
      |(ballReset 1 (1/4)).vy| ≤ 300) :=
  ⟨Or.inl rfl, by rw [abs_of_nonneg (by norm_num : (0:ℚ) ≤ 1/4)]; norm_num,
   c10_ball_reset 1 (1/4) (Or.inl rfl)
     (by rw [abs_of_nonneg (by norm_num : (0:ℚ) ≤ 1/4)]; norm_num)⟩

end Boing

namespace Boing

/-- With the win condition disabled (`SCORE_TO_WIN = 0`), the win block
never fires. -/
theorem winCheck_zero (l r : ℕ) (q : Bool) :
    winCheck 0 l r q = (none, WinOutcome.cont l r false) := by
  unfold winCheck
  rw [if_neg (by norm_num)]

/-- With the win condition disabled, `n` points leave a score of `n`. -/
theorem playPoints_zero_stw (n : ℕ) : playPoints 0 n = (0, n) := by
  induction n with
  | zero => rfl
  | succ k ih =>
    unfold playPoints
    rw [ih]
    simp only [winCheck_zero]

/-- C6: with `SCORE_TO_WIN = 5`, after a point the winner banner appears
exactly when a score has reached 5, and (unless the player quits during
the banner) both scores then reset to 0 with a fresh serve; with the win
condition disabled (`SCORE_TO_WIN = 0`) the win logic never resets scores
and the score exceeds every bound under repeated points. -/
theorem c6_win_condition :
    (∀ l r q, winCheck 5 l r q =
      (if 5 ≤ l ∨ 5 ≤ r then some (if 5 ≤ l then "Left wins!" else "Right wins!")
       else none,
       if 5 ≤ l ∨ 5 ≤ r then
         (if q then WinOutcome.exitGame else WinOutcome.cont 0 0 true)
       else WinOutcome.cont l r false)) ∧
    (∀ l r q, winCheck 0 l r q = (none, WinOutcome.cont l r false)) ∧
    (∀ bound : ℕ, bound < (playPoints 0 (bound + 1)).2) := by
  refine ⟨fun l r q => ?_, winCheck_zero, fun bound => ?_⟩
  · unfold winCheck
    rw [if_pos (by norm_num : (5:ℕ) ≠ 0 ∧ 0 < 5)]
    by_cases h : 5 ≤ l ∨ 5 ≤ r
    · simp only [if_pos h]
    · simp only [if_neg h]
  · rw [playPoints_zero_stw]
    omega

/-- C9: with difficulty `"Easy"`, `ai_move` outputs velocity 0 exactly when
the ball's center is within 14 px of the paddle's center, and otherwise a
velocity of magnitude exactly `0.7 × PADDLE_SPEED = 360 × 7/10`, directed
toward the ball (positive = downward = toward a ball below the paddle). -/
theorem c9_ai_easy_deadzone (pcy bcy : ℤ) :
    (|bcy - pcy| ≤ 14 → aiMove "Easy" pcy bcy = 0) ∧
    (14 < |bcy - pcy| →
      |aiMove "Easy" pcy bcy| = 360 * (7 / 10) ∧
      (pcy < bcy → aiMove "Easy" pcy bcy = 360 * (7 / 10)) ∧
      (bcy < pcy → aiMove "Easy" pcy bcy = -(360 * (7 / 10)))) := by
  unfold aiMove
  dsimp only
  rw [if_pos rfl, if_pos rfl]
  constructor
  · intro h
    rw [abs_le] at h
    have h1 : ¬ ((pcy : ℚ) < (bcy : ℚ) - 14) := by
      push_neg
      have hcast : (bcy : ℚ) - (pcy : ℚ) ≤ 14 := by exact_mod_cast h.2
      linarith
    have h2 : ¬ ((pcy : ℚ) > (bcy : ℚ) + 14) := by
      push_neg
      have hcast : (-14 : ℚ) ≤ (bcy : ℚ) - (pcy : ℚ) := by exact_mod_cast h.1
      linarith
    rw [if_neg h1, if_neg h2]
  · intro h
    rw [lt_abs] at h
    rcases h with h | h
    · have h1 : (pcy : ℚ) < (bcy : ℚ) - 14 := by
        have hcast : (14 : ℚ) < (bcy : ℚ) - (pcy : ℚ) := by exact_mod_cast h
        linarith
      rw [if_pos h1]
      refine ⟨abs_of_pos (by norm_num), fun _ => rfl, fun hcon => ?_⟩
      have : (14 : ℤ) < bcy - pcy := by exact_mod_cast h
      omega
    · have h' : (14 : ℤ) < pcy - bcy := by omega
      have h1 : ¬ ((pcy : ℚ) < (bcy : ℚ) - 14) := by
        push_neg
        have hcast : (14 : ℚ) < (pcy : ℚ) - (bcy : ℚ) := by exact_mod_cast h'
        linarith
      have h2 : (pcy : ℚ) > (bcy : ℚ) + 14 := by
        have hcast : (14 : ℚ) < (pcy : ℚ) - (bcy : ℚ) := by exact_mod_cast h'
        linarith
      rw [if_neg h1, if_pos h2]
      refine ⟨by rw [abs_neg]; exact abs_of_pos (by norm_num), fun hcon => ?_, fun _ => rfl⟩
      omega

/-- C9 witness: a ball 7 px away holds the paddle still; one 100 px away
drives it at exactly `360 × 7/10` toward the ball. -/
theorem c9_ai_easy_deadzone_witness :
    (|(7 : ℤ) - 0| ≤ 14 ∧ aiMove "Easy" 0 7 = 0) ∧
    (14 < |(100 : ℤ) - 0| ∧ |aiMove "Easy" 0 100| = 360 * (7 / 10) ∧
      aiMove "Easy" 0 100 = 360 * (7 / 10)) := by
  have w1 := (c9_ai_easy_deadzone 0 7).1 (by decide)
  have w2 := (c9_ai_easy_deadzone 0 100).2 (by decide)
  exact ⟨⟨by decide, w1⟩, ⟨by decide, w2.1, w2.2.1 (by decide)⟩⟩

end Boing

namespace Boing

/-- Lookup after a single dict assignment. -/
theorem dget_dset (d : List (String × PVal)) (k : String) (v : PVal) (k' : String) :
    dget (dset d k v) k' = if k' = k then some v else dget d k' := by
  induction d with
  | nil =>
    by_cases h : k' = k
    · simp [dset, dget, h]
    · simp [dset, dget, h]
  | cons hd tl ih =>
    obtain ⟨k0, v0⟩ := hd
    by_cases h0 : k = k0
    · subst h0
      rw [dset, if_pos rfl]
      by_cases h : k' = k
      · rw [dget, if_pos h, if_pos h]
      · rw [dget, if_neg h, if_neg h, dget, if_neg h]
    · rw [dset, if_neg h0]
      by_cases h : k' = k0
      · rw [dget, if_pos h, if_neg (by rw [h]; exact fun hh => h0 hh.symm), dget, if_pos h]
      · rw [dget, if_neg h, ih, dget, if_neg h]

/-- A lookup misses exactly when the key is absent. -/
theorem dget_eq_none_iff (d : List (String × PVal)) (k : String) :
    dget d k = none ↔ k ∉ dkeys d := by
  induction d with
  | nil => simp [dget, dkeys]
  | cons hd tl ih =>
    obtain ⟨k0, v0⟩ := hd
    by_cases h : k = k0
    · subst h
      simp [dget, dkeys]
    · rw [dget, if_neg h, ih]
      simp [dkeys, h]

/-- A dict merge leaves absent keys alone. -/
theorem dget_dupdate_none (u : List (String × PVal)) :
    ∀ (d : List (String × PVal)) (k : String), dget u k = none →
      dget (dupdate d u) k = dget d k := by
  induction u with
  | nil => intro d k _; rfl
  | cons hd tl ih =>
    obtain ⟨k0, v0⟩ := hd
    intro d k h
    rw [dget] at h
    by_cases hk : k = k0
    · rw [if_pos hk] at h
      exact absurd h (by simp)
    · rw [if_neg hk] at h
      show dget (dupdate (dset d k0 v0) tl) k = dget d k
      rw [ih (dset d k0 v0) k h, dget_dset, if_neg hk]

/-- A dict merge installs every binding of the update dict (keys assumed
distinct, as in a Python dict). -/
theorem dget_dupdate_some (u : List (String × PVal)) :
    ∀ (d : List (String × PVal)) (k : String) (v : PVal), (dkeys u).Nodup →
      dget u k = some v → dget (dupdate d u) k = some v := by
  induction u with
  | nil => intro d k v _ h; exact absurd h (by simp [dget])
  | cons hd tl ih =>
    obtain ⟨k0, v0⟩ := hd
    intro d k v hu h
    have hk0 : k0 ∉ dkeys tl := by
      have h' : (k0 :: dkeys tl).Nodup := hu
      exact (List.nodup_cons.mp h').1
    have hu' : (dkeys tl).Nodup := by
      have h' : (k0 :: dkeys tl).Nodup := hu
      exact (List.nodup_cons.mp h').2
    rw [dget] at h
    by_cases hk : k = k0
    · rw [if_pos hk] at h
      have hnone : dget tl k = none := by
        rw [dget_eq_none_iff, hk]
        exact hk0
      show dget (dupdate (dset d k0 v0) tl) k = some v
      rw [dget_dupdate_none tl (dset d k0 v0) k hnone, dget_dset, if_pos hk]
      exact h
    · rw [if_neg hk] at h
      show dget (dupdate (dset d k0 v0) tl) k = some v
      exact ih (dset d k0 v0) k v hu' h

/-- Merging a base dict under an update dict whose keys cover the base
yields exactly the update dict, lookup-wise. -/
theorem dupdate_faithful (d u : List (String × PVal))
    (hu : (dkeys u).Nodup) (hsub : ∀ k ∈ dkeys d, k ∈ dkeys u) (k : String) :
    dget (dupdate d u) k = dget u k := by
  cases h : dget u k with
  | some v => exact dget_dupdate_some u d k v hu h
  | none =>
    rw [dget_dupdate_none u d k h]
    have hk : k ∉ dkeys u := (dget_eq_none_iff u k).mp h
    have hk' : k ∉ dkeys d := fun hmem => hk (hsub k hmem)
    exact (dget_eq_none_iff d k).mpr hk'

/-- C7: saving a well-formed settings record (a dict with distinct keys
covering the default keys, whose `"controls"` entry is a dict with
distinct keys covering the seven default actions) and reloading it yields
a record equal to the one saved — every top-level entry and every nested
control binding looks up identically — and in particular every unbound
(`None`) control entry is preserved as unbound rather than replaced by the
compiled-in default binding. -/
theorem c7_settings_roundtrip (s cs : List (String × PVal))
    (hc : dget s "controls" = some (PVal.vdict cs))
    (hnds : (dkeys s).Nodup) (hndc : (dkeys cs).Nodup)
    (hks : ∀ k ∈ dkeys defaultSettings, k ∈ dkeys s)
    (hkc : ∀ k ∈ dkeys defaultControls, k ∈ dkeys cs) :
    (∀ k, k ≠ "controls" → dget (loadSettings (saveSettings s)) k = dget s k) ∧
    dget (loadSettings (saveSettings s)) "controls"
      = some (PVal.vdict (dupdate defaultControls cs)) ∧
    (∀ k, dget (dupdate defaultControls cs) k = dget cs k) ∧
    (∀ k, dget cs k = some PVal.vnone →
      dget (dupdate defaultControls cs) k = some PVal.vnone) := by
  have hload : loadSettings (saveSettings s)
      = dset (dupdate defaultSettings s) "controls"
          (PVal.vdict (dupdate defaultControls cs)) := by
    unfold loadSettings saveSettings
    rw [hc]
  have hctrl : ∀ k, dget (dupdate defaultControls cs) k = dget cs k :=
    dupdate_faithful defaultControls cs hndc hkc
  refine ⟨?_, ?_, hctrl, fun k hk => by rw [hctrl k, hk]⟩
  · intro k hk
    rw [hload, dget_dset, if_neg hk]
    exact dupdate_faithful defaultSettings s hnds hks k
  · rw [hload, dget_dset, if_pos rfl]

/-- C7 witness: the sample record (with `"reset"` unbound) satisfies all
hypotheses and keeps `"reset"` unbound through the round trip. -/
theorem c7_settings_roundtrip_witness :
    dget sampleSettings "controls" = some (PVal.vdict sampleControls) ∧
    (dkeys sampleSettings).Nodup ∧ (dkeys sampleControls).Nodup ∧
    (∀ k ∈ dkeys defaultSettings, k ∈ dkeys sampleSettings) ∧
    (∀ k ∈ dkeys defaultControls, k ∈ dkeys sampleControls) ∧
    dget sampleControls "reset" = some PVal.vnone ∧
    dget (dupdate defaultControls sampleControls) "reset" = some PVal.vnone := by
  refine ⟨rfl, by decide, by decide, by decide, by decide, rfl, ?_⟩
  exact (c7_settings_roundtrip sampleSettings sampleControls rfl (by decide) (by decide)
    (by decide) (by decide)).2.2.2 "reset" rfl

/-- C8 (amended): every impact burst emits between 2 and 200 particles for
any quality setting and intensity; and for a common base count of at least
2 (which covers the program's base counts 12 and 48) the quality scaling is
strictly monotone: Low < Normal < High.  (For base count 1 all three
qualities coincide, see the counterexample.) -/
theorem c8_particles_amended :
    (∀ (q : String) (intensity : ℚ),
      2 ≤ emitParticlesCount q intensity ∧ emitParticlesCount q intensity ≤ 200) ∧
    (∀ base : ℤ, 2 ≤ base →
      getParticleCount "Low" base < getParticleCount "Normal" base ∧
      getParticleCount "Normal" base < getParticleCount "High" base) := by
  constructor
  · intro q intensity
    unfold emitParticlesCount
    exact ⟨le_max_left _ _, max_le (by norm_num) (min_le_left _ _)⟩
  · intro base hb
    have hbq : (2 : ℚ) ≤ (base : ℚ) := by exact_mod_cast hb
    unfold getParticleCount
    rw [if_pos rfl, if_neg (by decide : ¬ ("Normal" : String) = "Low"),
      if_neg (by decide : ¬ ("Normal" : String) = "High"),
      if_neg (by decide : ¬ ("High" : String) = "Low"), if_pos rfl]
    constructor
    · have hpy : pyInt ((base : ℚ) * (1 / 2)) = ⌊(base : ℚ) * (1 / 2)⌋ := by
        unfold pyInt
        rw [if_pos (by linarith)]
      rw [hpy]
      refine max_lt (by omega) ?_
      rw [Int.floor_lt]
      linarith
    · have hpy : pyInt ((base : ℚ) * (9 / 5)) = ⌊(base : ℚ) * (9 / 5)⌋ := by
        unfold pyInt
        rw [if_pos (by linarith)]
      rw [hpy]
      have h1 : base + 1 ≤ ⌊(base : ℚ) * (9 / 5)⌋ := by
        rw [Int.le_floor]
        push_cast
        linarith
      omega

/-- C8 witness: the program's impact base count 12 scales to 6 < 12 < 21,
and a quality-`"Normal"` impact burst count is within `[2, 200]`. -/
theorem c8_particles_witness :
    ((2 : ℤ) ≤ 12) ∧
    (getParticleCount "Low" 12 < getParticleCount "Normal" 12 ∧
      getParticleCount "Normal" 12 < getParticleCount "High" 12) ∧
    (2 ≤ emitParticlesCount "Normal" 1 ∧ emitParticlesCount "Normal" 1 ≤ 200) :=
  ⟨by norm_num, c8_particles_amended.2 12 (by norm_num),
    c8_particles_amended.1 "Normal" 1⟩

/-- C8 counterexample: at base count 1 the three qualities all return 1
(`Low = max 1 ⌊0.5⌋ = 1`, `Normal = 1`, `High = ⌊1.8⌋ = 1`), so the strict
chain Low < Normal < High fails for that common base count. -/
theorem c8_particles_counterexample :
    ¬ (getParticleCount "Low" 1 < getParticleCount "Normal" 1 ∧
       getParticleCount "Normal" 1 < getParticleCount "High" 1) := by
  have hlow : pyInt ((((1 : ℤ)) : ℚ) * (1 / 2)) = 0 := by norm_num [pyInt]
  have hhigh : pyInt ((((1 : ℤ)) : ℚ) * (9 / 5)) = 1 := by norm_num [pyInt]
  unfold getParticleCount
  rw [if_pos rfl, if_neg (by decide : ¬ ("Normal" : String) = "Low"),
    if_neg (by decide : ¬ ("Normal" : String) = "High"),
    if_neg (by decide : ¬ ("High" : String) = "Low"), if_pos rfl, hlow, hhigh]
  omega

end Boing
